import Mathlib

/-!
Shallow embedding of `context_chat_backend/vectordb/qdrant.py`: the `VectorDB`
adapter class binding a Qdrant client to the generic vector-database interface.

The remote Qdrant service is modelled as an explicit state (`DBState`, the set
of provisioned collections) threaded through the operations, plus an oracle
`searchFn : SearchQuery → List Hit` abstracting `client.search`.  Python
exceptions become `Except DbException`; Python `None` becomes `Option`.
-/

set_option autoImplicit false

namespace Qdrant

/-- An abstract handle for a created `QdrantClient` connection. -/
structure Client where
  tag : Nat
deriving DecidableEq

/-- An abstract handle for a langchain `Embeddings` object (always truthy in Python). -/
structure Embeddings where
  tag : Nat
deriving DecidableEq

/-- The three messages wrapped in `DbException` by `qdrant.py`. -/
inductive DbException where
  /-- raised in `__init__`: `'Error: Qdrant connection error'` -/
  | connectionError
  /-- raised by the guards: `'Error: Qdrant client not initialised'` -/
  | clientNotInitialised
  /-- raised in `get_objects_from_metadata`: `'Error: Qdrant metadata filter error'` -/
  | metadataFilterError
deriving DecidableEq

/-- One entry of `class_schema['properties']`. -/
structure PayloadProperty where
  name : String
  ptype : String
  description : String
deriving DecidableEq

/-- The module-level `class_schema` dictionary. -/
structure ClassSchema where
  properties : List PayloadProperty
  vector_size : Nat
  distance : String
deriving DecidableEq

def class_schema : ClassSchema :=
  { properties := [
      { name := "text", ptype := "text", description := "The actual text" },
      { name := "type", ptype := "text", description := "The type of source/mimetype of file" },
      { name := "title", ptype := "text", description := "The name or subject of the source" },
      { name := "source", ptype := "text",
        description := "The source of the text (for files: `files__default: fileId`)" },
      { name := "start_index", ptype := "integer", description := "Start index of chunk" },
      { name := "modified", ptype := "text", description := "Last modified time of the file" },
      { name := "provider", ptype := "text", description := "The provider of the source" }
    ],
    vector_size := 768,
    distance := "Cosine" }

/-- `rest.Distance` as used by `create_collection`. -/
inductive Distance where
  | Cosine
  | Dot
  | Euclid
deriving DecidableEq

/-- A provisioned collection on the Qdrant server, recording the arguments of
`client.create_collection`. -/
structure CollectionInfo where
  name : String
  vector_size : Nat
  distance : Distance
  payload_schema : List PayloadProperty
deriving DecidableEq

/-- The observable server state: the list of provisioned collections
(as reported by `client.get_collections().collections`). -/
structure DBState where
  collections : List CollectionInfo
deriving DecidableEq

/-- Modelled from the spec: collections are "named deterministically from a
user identifier" by prepending a fixed tag (the helper `get_collection_name`
lives in `vectordb/__init__.py`, outside the reviewed source). -/
def collection_name_base : String := "Vector_index_"

/-- Modelled from the spec: deterministic collection naming from a user id. -/
def get_collection_name (user_id : String) : String :=
  String.mk (collection_name_base.data ++ user_id.data)

/-- Modelled from the spec: `get_users` "maps each [collection] back to a user
identifier"; the helper `get_user_id_from_collection` (in
`vectordb/__init__.py`, outside the reviewed source) strips the fixed tag. -/
def get_user_id_from_collection (collection_name : String) : String :=
  String.mk (collection_name.data.drop collection_name_base.data.length)

/-- The adapter object: `self.client` and `self.embedding` as set by `__init__`.
`client` is an `Option` because the methods guard on `if not self.client`. -/
structure VectorDB where
  client : Option Client
  embedding : Option Embeddings
deriving DecidableEq

/-- `VectorDB.__init__`: `clientResult` stands for the attempt to construct
`QdrantClient(url=..., api_key=...)`; any exception there is re-raised as
`DbException('Error: Qdrant connection error')`, otherwise the fields are set. -/
def init (clientResult : Except Unit Client) (embedding : Option Embeddings) :
    Except DbException VectorDB :=
  match clientResult with
  | .error _ => .error .connectionError
  | .ok client => .ok { client := some client, embedding := embedding }

/-- `get_users`: list collections, map each name back to a user id. -/
def get_users (db : VectorDB) (state : DBState) : Except DbException (List String) :=
  match db.client with
  | none => .error .clientNotInitialised
  | some _ =>
    .ok (state.collections.map (fun coll => get_user_id_from_collection coll.name))

/-- `setup_schema`: create the user's collection if absent, with vector size
768, Cosine distance, and the `class_schema` payload properties. -/
def setup_schema (db : VectorDB) (state : DBState) (user_id : String) :
    Except DbException DBState :=
  match db.client with
  | none => .error .clientNotInitialised
  | some _ =>
    let collection_name := get_collection_name user_id
    if collection_name ∈ state.collections.map (fun c => c.name) then
      .ok state
    else
      .ok { collections := state.collections ++
              [{ name := collection_name, vector_size := 768, distance := Distance.Cosine,
                 payload_schema := class_schema.properties }] }

/-- The langchain `Qdrant` vector-store handle built by `get_user_client`. -/
structure UserClient where
  client : Option Client
  collection_name : String
  text_key : String
  embedding : Option Embeddings
deriving DecidableEq

/-- Python truthiness-based `a or b` on optional `Embeddings` (an `Embeddings`
object is always truthy, `None` is falsy). -/
def pyOr (a b : Option Embeddings) : Option Embeddings :=
  match a with
  | some e => some e
  | none => b

/-- `get_user_client`: ensure the schema, then build the vector-store handle.
Note the source binds `embedding=(self.embedding or embedding)`. -/
def get_user_client (db : VectorDB) (state : DBState) (user_id : String)
    (embedding : Option Embeddings) : Except DbException (DBState × UserClient) :=
  match setup_schema db state user_id with
  | .error e => .error e
  | .ok state1 =>
    .ok (state1,
      { client := db.client,
        collection_name := get_collection_name user_id,
        text_key := "text",
        embedding := pyOr db.embedding embedding })

/-- A `MetadataFilter` input dict; a field is `none` when the key is absent
(accessing it in Python raises `KeyError`). -/
structure MetadataFilter where
  metadata_key : Option String
  values : Option (List String)
deriving DecidableEq

/-- One translated exact-match filter `{'key': k, 'match': {'value': vs}}`. -/
structure KeyMatch where
  key : String
  match_value : List String
deriving DecidableEq

/-- The translated query filter: either a single exact-match dict or a
`{'should': [...]}` disjunction. -/
inductive QueryFilter where
  | single : KeyMatch → QueryFilter
  | should : List KeyMatch → QueryFilter
deriving DecidableEq

/-- Build one exact-match dict from a filter element; `none` models the
`KeyError` raised when `metadata_key` or `values` is missing. -/
def mkKeyMatch (f : MetadataFilter) : Option KeyMatch :=
  match f.metadata_key, f.values with
  | some k, some vs => some { key := k, match_value := vs }
  | _, _ => none

/-- The list comprehension building the `should` list; `none` models the
`KeyError` escaping the comprehension when any element misses a key. -/
def mkKeyMatchList : List MetadataFilter → Option (List KeyMatch)
  | [] => some []
  | f :: fs =>
    match mkKeyMatch f, mkKeyMatchList fs with
    | some km, some kms => some (km :: kms)
    | _, _ => none

/-- `get_metadata_filter`: pure translation; `none` models both the explicit
`return None` on an empty list and the `except (KeyError, IndexError): return None`. -/
def get_metadata_filter : List MetadataFilter → Option QueryFilter
  | [] => none
  | [f] =>
    match mkKeyMatch f with
    | some km => some (QueryFilter.single km)
    | none => none
  | fs =>
    match mkKeyMatchList fs with
    | some kms => some (QueryFilter.should kms)
    | none => none

/-- One search hit returned by `client.search`: an internal id and a payload
dictionary (string keys and values; `payloadGet` is dict `.get`). -/
structure Hit where
  id : Nat
  payload : List (String × String)
deriving DecidableEq

/-- Python `dict.get`: first binding of the key, else `None`. -/
def payloadGet (payload : List (String × String)) (key : String) : Option String :=
  match payload.find? (fun kv => kv.1 = key) with
  | some kv => some kv.2
  | none => none

/-- The arguments passed to `client.search`. -/
structure SearchQuery where
  collection_name : String
  query_vector : Option (List Int)
  query_filter : QueryFilter
  limit : Nat
deriving DecidableEq

/-- One value of the returned `TSearchDict`: `{'id': ..., 'modified': ...}`. -/
structure SearchEntry where
  id : Nat
  modified : Option String
deriving DecidableEq

/-- Python dict assignment `output[k] = v`: overwrite in place if the key is
present, else append. -/
def dictInsert (d : List (String × SearchEntry)) (k : String) (v : SearchEntry) :
    List (String × SearchEntry) :=
  if d.any (fun p => p.1 = k) then
    d.map (fun p => if p.1 = k then (k, v) else p)
  else
    d ++ [(k, v)]

/-- The body of the `for hit in search_result:` loop. -/
def processHit (metadata_key : String) (values : List String)
    (output : List (String × SearchEntry)) (hit : Hit) : List (String × SearchEntry) :=
  match payloadGet hit.payload metadata_key with
  | some key_value =>
    if key_value ∈ values then
      dictInsert output key_value { id := hit.id, modified := payloadGet hit.payload "modified" }
    else
      output
  | none => output

/-- `get_objects_from_metadata`.  `searchFn` is the oracle for `client.search`
(the remote service decides the hits); the returned triple also records the
issued `SearchQuery` so its arguments can be inspected. -/
def get_objects_from_metadata (db : VectorDB) (state : DBState)
    (searchFn : SearchQuery → List Hit)
    (user_id : String) (metadata_key : String) (values : List String) :
    Except DbException (DBState × SearchQuery × List (String × SearchEntry)) :=
  match db.client with
  | none => .error .clientNotInitialised
  | some _ =>
    match setup_schema db state user_id with
    | .error e => .error e
    | .ok state1 =>
      match get_metadata_filter
          [{ metadata_key := some metadata_key, values := some values }] with
      | none => .error .metadataFilterError
      | some query_filter =>
        let query : SearchQuery :=
          { collection_name := get_collection_name user_id,
            query_vector := none,
            query_filter := query_filter,
            limit := 100 }
        let search_result := searchFn query
        let output := search_result.foldl (processHit metadata_key values) []
        .ok (state1, query, output)

/-! ### Helper lemmas shared across claims -/

/-- The collection that `create_collection` provisions for a user. -/
def createdCollection (user_id : String) : CollectionInfo :=
  { name := get_collection_name user_id, vector_size := 768, distance := Distance.Cosine,
    payload_schema := class_schema.properties }

/-- The state transformation performed by a successful `setup_schema`. -/
def ensureState (state : DBState) (user_id : String) : DBState :=
  if get_collection_name user_id ∈ state.collections.map (fun c => c.name) then state
  else { collections := state.collections ++ [createdCollection user_id] }

theorem setup_schema_some (c : Client) (emb : Option Embeddings) (state : DBState)
    (user_id : String) :
    setup_schema ⟨some c, emb⟩ state user_id = .ok (ensureState state user_id) := by
  by_cases h : get_collection_name user_id ∈ state.collections.map (fun c => c.name) <;>
    simp [setup_schema, ensureState, createdCollection, h]

theorem mem_ensureState (state : DBState) (user_id : String) :
    get_collection_name user_id ∈ (ensureState state user_id).collections.map (fun c => c.name) := by
  unfold ensureState
  by_cases h : get_collection_name user_id ∈ state.collections.map (fun c => c.name)
  · simp [h]
  · simp [h, createdCollection]

theorem ensureState_idem (state : DBState) (user_id : String) :
    ensureState (ensureState state user_id) user_id = ensureState state user_id := by
  have h := mem_ensureState state user_id
  set t := ensureState state user_id with ht
  rw [ensureState, if_pos h]

theorem roundtrip_collection_name (user_id : String) :
    get_user_id_from_collection (get_collection_name user_id) = user_id := by
  unfold get_user_id_from_collection get_collection_name
  show String.mk ((collection_name_base.data ++ user_id.data).drop collection_name_base.data.length) = user_id
  rw [List.drop_left]

theorem mkKeyMatch_none (f : MetadataFilter)
    (h : f.metadata_key = none ∨ f.values = none) : mkKeyMatch f = none := by
  unfold mkKeyMatch
  rcases h with h | h
  · rw [h]
  · rw [h]
    cases f.metadata_key <;> rfl

theorem mkKeyMatchList_none_of_mem (fs : List MetadataFilter) (f : MetadataFilter)
    (hmem : f ∈ fs) (hf : mkKeyMatch f = none) : mkKeyMatchList fs = none := by
  induction fs with
  | nil => cases hmem
  | cons g gs ih =>
    rcases List.mem_cons.1 hmem with h | h
    · subst h
      simp [mkKeyMatchList, hf]
    · unfold mkKeyMatchList
      rw [ih h]
      cases mkKeyMatch g <;> rfl

theorem mkKeyMatchList_all_some (fs : List MetadataFilter)
    (h : ∀ f ∈ fs, f.metadata_key.isSome ∧ f.values.isSome) :
    mkKeyMatchList fs =
      some (fs.map (fun f => ⟨f.metadata_key.getD "", f.values.getD []⟩)) := by
  induction fs with
  | nil => rfl
  | cons g gs ih =>
    obtain ⟨hk, hv⟩ := h g (List.mem_cons_self g gs)
    obtain ⟨k, hk'⟩ := Option.isSome_iff_exists.1 hk
    obtain ⟨vs, hv'⟩ := Option.isSome_iff_exists.1 hv
    unfold mkKeyMatchList
    rw [ih (fun f hf => h f (List.mem_cons_of_mem g hf))]
    simp [mkKeyMatch, hk', hv']

theorem dictInsert_mem (d : List (String × SearchEntry)) (k : String) (v : SearchEntry)
    (p : String × SearchEntry) (hp : p ∈ dictInsert d k v) : p ∈ d ∨ p = (k, v) := by
  unfold dictInsert at hp
  split at hp
  · rcases List.mem_map.1 hp with ⟨q, hq, hEq⟩
    by_cases hqk : q.1 = k
    · right
      rw [← hEq, if_pos hqk]
    · left
      rw [← hEq, if_neg hqk]
      exact hq
  · rcases List.mem_append.1 hp with h | h
    · exact .inl h
    · right
      simpa using h

theorem dictInsert_length (d : List (String × SearchEntry)) (k : String) (v : SearchEntry) :
    (dictInsert d k v).length ≤ d.length + 1 := by
  unfold dictInsert
  split
  · simp
  · simp

theorem dictInsert_keys_nodup (d : List (String × SearchEntry)) (k : String) (v : SearchEntry)
    (h : (d.map Prod.fst).Nodup) : ((dictInsert d k v).map Prod.fst).Nodup := by
  unfold dictInsert
  split
  · have heq : (d.map (fun p => if p.1 = k then (k, v) else p)).map Prod.fst = d.map Prod.fst := by
      rw [List.map_map]
      apply List.map_congr_left
      intro p _
      by_cases hp : p.1 = k
      · simp [hp]
      · simp [hp]
    rw [heq]
    exact h
  · rename_i hc
    have hk : k ∉ d.map Prod.fst := by
      simp only [List.any_eq_true, decide_eq_true_eq] at hc
      push_neg at hc
      intro hmem
      rcases List.mem_map.1 hmem with ⟨q, hq, hEq⟩
      exact hc q hq hEq
    rw [List.map_append]
    refine List.Nodup.append h (by simp) ?_
    intro x hx hx'
    simp at hx'
    subst hx'
    exact hk hx

theorem processHit_length (metadata_key : String) (values : List String)
    (out : List (String × SearchEntry)) (hit : Hit) :
    (processHit metadata_key values out hit).length ≤ out.length + 1 := by
  unfold processHit
  split
  · split
    · exact dictInsert_length _ _ _
    · exact Nat.le_succ _
  · exact Nat.le_succ _

theorem processHit_keys_nodup (metadata_key : String) (values : List String)
    (out : List (String × SearchEntry)) (hit : Hit)
    (h : (out.map Prod.fst).Nodup) :
    ((processHit metadata_key values out hit).map Prod.fst).Nodup := by
  unfold processHit
  split
  · split
    · exact dictInsert_keys_nodup _ _ _ h
    · exact h
  · exact h

theorem processHit_mem (metadata_key : String) (values : List String)
    (out : List (String × SearchEntry)) (hit : Hit) (p : String × SearchEntry)
    (hp : p ∈ processHit metadata_key values out hit) :
    p ∈ out ∨ (p.1 ∈ values ∧ p.2.id = hit.id ∧
      p.2.modified = payloadGet hit.payload "modified" ∧
      payloadGet hit.payload metadata_key = some p.1) := by
  unfold processHit at hp
  split at hp
  · rename_i kv hkv
    split at hp
    · rename_i hin
      rcases dictInsert_mem _ _ _ _ hp with h | h
      · exact .inl h
      · right
        subst h
        exact ⟨hin, rfl, rfl, hkv⟩
    · exact .inl hp
  · exact .inl hp

theorem foldl_processHit_mem (metadata_key : String) (values : List String)
    (hits : List Hit) :
    ∀ (out : List (String × SearchEntry)) (p : String × SearchEntry),
      p ∈ hits.foldl (processHit metadata_key values) out →
      p ∈ out ∨ (p.1 ∈ values ∧ ∃ hit ∈ hits, p.2.id = hit.id ∧
        p.2.modified = payloadGet hit.payload "modified" ∧
        payloadGet hit.payload metadata_key = some p.1) := by
  induction hits with
  | nil =>
    intro out p hp
    exact .inl (by simpa using hp)
  | cons hit hs ih =>
    intro out p hp
    rw [List.foldl_cons] at hp
    rcases ih (processHit metadata_key values out hit) p hp with h | h
    · rcases processHit_mem _ _ _ _ _ h with h' | h'
      · exact .inl h'
      · exact .inr ⟨h'.1, hit, List.mem_cons_self hit hs, h'.2⟩
    · rcases h.2 with ⟨q, hq, hrest⟩
      exact .inr ⟨h.1, q, List.mem_cons_of_mem hit hq, hrest⟩

theorem foldl_processHit_keys_nodup (metadata_key : String) (values : List String)
    (hits : List Hit) :
    ∀ out, (out.map Prod.fst).Nodup →
      ((hits.foldl (processHit metadata_key values) out).map Prod.fst).Nodup := by
  induction hits with
  | nil =>
    intro out h
    simpa using h
  | cons hit hs ih =>
    intro out h
    rw [List.foldl_cons]
    exact ih _ (processHit_keys_nodup _ _ _ _ h)

theorem foldl_processHit_length (metadata_key : String) (values : List String)
    (hits : List Hit) :
    ∀ out, (hits.foldl (processHit metadata_key values) out).length ≤
      out.length + hits.length := by
  induction hits with
  | nil =>
    intro out
    simp
  | cons hit hs ih =>
    intro out
    rw [List.foldl_cons]
    calc (hs.foldl (processHit metadata_key values) (processHit metadata_key values out hit)).length
        ≤ (processHit metadata_key values out hit).length + hs.length := ih _
      _ ≤ (out.length + 1) + hs.length :=
        Nat.add_le_add_right (processHit_length _ _ _ _) _
      _ = out.length + (hit :: hs).length := by
        simp only [List.length_cons]
        omega

theorem get_objects_some_client (c : Client) (emb : Option Embeddings) (state : DBState)
    (searchFn : SearchQuery → List Hit) (user_id metadata_key : String) (values : List String) :
    get_objects_from_metadata ⟨some c, emb⟩ state searchFn user_id metadata_key values =
      .ok (ensureState state user_id,
        ⟨get_collection_name user_id, none, QueryFilter.single ⟨metadata_key, values⟩, 100⟩,
        (searchFn ⟨get_collection_name user_id, none,
            QueryFilter.single ⟨metadata_key, values⟩, 100⟩).foldl
          (processHit metadata_key values) []) := by
  unfold get_objects_from_metadata
  rw [setup_schema_some]
  rfl

/-! ### Claim theorems -/

/-- Claim C1 (code bug evidence): with instance embedding `⟨1⟩` set and a
non-null request-level embedding `⟨2⟩` passed, `get_user_client` binds the
handle to the instance embedding `⟨1⟩`, because the source computes
`self.embedding or embedding`.  This contradicts the claim (and the inline
source comment), which say the request-level embedding takes precedence. -/
theorem C1_get_user_client_binds_instance_embedding :
    get_user_client ⟨some ⟨0⟩, some ⟨1⟩⟩ ⟨[]⟩ "bob" (some ⟨2⟩) =
      .ok (⟨[⟨get_collection_name "bob", 768, Distance.Cosine, class_schema.properties⟩]⟩,
        ⟨some ⟨0⟩, get_collection_name "bob", "text", some ⟨1⟩⟩) := by
  rfl

/-- Claim C2: with an initialised client and a server honouring the `limit`
argument, `get_objects_from_metadata` issues a query with `query_vector = None`
and `limit = 100`, and returns a mapping whose keys all lie in the requested
value list, with no duplicate keys, at most 100 entries, each entry holding
some hit's internal id and its `modified` payload field. -/
theorem C2_get_objects_from_metadata_shape (c : Client) (emb : Option Embeddings)
    (state : DBState) (searchFn : SearchQuery → List Hit)
    (hcap : ∀ q, (searchFn q).length ≤ q.limit)
    (user_id metadata_key : String) (values : List String) :
    ∃ s1 q out,
      get_objects_from_metadata ⟨some c, emb⟩ state searchFn user_id metadata_key values =
        .ok (s1, q, out) ∧
      q.query_vector = none ∧
      q.limit = 100 ∧
      (∀ p ∈ out, p.1 ∈ values) ∧
      (out.map Prod.fst).Nodup ∧
      out.length ≤ 100 ∧
      (∀ p ∈ out, ∃ hit ∈ searchFn q, p.2.id = hit.id ∧
        p.2.modified = payloadGet hit.payload "modified" ∧
        payloadGet hit.payload metadata_key = some p.1) := by
  refine ⟨ensureState state user_id,
    ⟨get_collection_name user_id, none, QueryFilter.single ⟨metadata_key, values⟩, 100⟩,
    _, get_objects_some_client c emb state searchFn user_id metadata_key values,
    rfl, rfl, ?_, ?_, ?_, ?_⟩
  · intro p hp
    rcases foldl_processHit_mem _ _ _ _ _ hp with h | h
    · cases h
    · exact h.1
  · exact foldl_processHit_keys_nodup _ _ _ _ (by simp)
  · have h1 := foldl_processHit_length metadata_key values
      (searchFn ⟨get_collection_name user_id, none,
        QueryFilter.single ⟨metadata_key, values⟩, 100⟩) []
    have h2 := hcap ⟨get_collection_name user_id, none,
      QueryFilter.single ⟨metadata_key, values⟩, 100⟩
    simp only [List.length_nil, Nat.zero_add] at h1
    exact le_trans h1 h2
  · intro p hp
    rcases foldl_processHit_mem _ _ _ _ _ hp with h | h
    · cases h
    · exact h.2

/-- Witness for C2 at a concrete client, state, server and request. -/
theorem C2_witness :
    ∃ s1 q out,
      get_objects_from_metadata ⟨some ⟨0⟩, none⟩ ⟨[]⟩
        (fun q => List.take q.limit [⟨7, [("source", "f1"), ("modified", "2024")]⟩])
        "alice" "source" ["f1"] = .ok (s1, q, out) ∧
      q.query_vector = none ∧
      q.limit = 100 ∧
      (∀ p ∈ out, p.1 ∈ ["f1"]) ∧
      (out.map Prod.fst).Nodup ∧
      out.length ≤ 100 ∧
      (∀ p ∈ out, ∃ hit ∈ List.take q.limit
          ([⟨7, [("source", "f1"), ("modified", "2024")]⟩] : List Hit),
        p.2.id = hit.id ∧ p.2.modified = payloadGet hit.payload "modified" ∧
        payloadGet hit.payload "source" = some p.1) :=
  C2_get_objects_from_metadata_shape ⟨0⟩ none ⟨[]⟩
    (fun q => List.take q.limit [⟨7, [("source", "f1"), ("modified", "2024")]⟩])
    (fun q => by rw [List.length_take]; exact Nat.min_le_left _ _)
    "alice" "source" ["f1"]

/-- Claim C3: with an initialised client, `setup_schema` leaves the state
unchanged when the user's collection exists, otherwise appends exactly one
collection with vector size 768 and Cosine distance, and is idempotent. -/
theorem C3_setup_schema_idempotent (c : Client) (emb : Option Embeddings)
    (state : DBState) (user_id : String) :
    (get_collection_name user_id ∈ state.collections.map (fun x => x.name) →
      setup_schema ⟨some c, emb⟩ state user_id = .ok state) ∧
    (get_collection_name user_id ∉ state.collections.map (fun x => x.name) →
      setup_schema ⟨some c, emb⟩ state user_id =
        .ok ⟨state.collections ++ [⟨get_collection_name user_id, 768, Distance.Cosine,
          class_schema.properties⟩]⟩) ∧
    (∀ s1, setup_schema ⟨some c, emb⟩ state user_id = .ok s1 →
      setup_schema ⟨some c, emb⟩ s1 user_id = .ok s1) := by
  refine ⟨?_, ?_, ?_⟩
  · intro h
    simp [setup_schema_some, ensureState, h]
  · intro h
    simp [setup_schema_some, ensureState, h, createdCollection]
  · intro s1 h1
    rw [setup_schema_some] at h1
    injection h1 with h1
    subst h1
    rw [setup_schema_some, ensureState_idem]

/-- Witness for C3: creating a fresh collection for `"alice"`. -/
theorem C3_witness :
    setup_schema ⟨some ⟨0⟩, none⟩ ⟨[]⟩ "alice" =
      .ok ⟨[⟨get_collection_name "alice", 768, Distance.Cosine, class_schema.properties⟩]⟩ :=
  (C3_setup_schema_idempotent ⟨0⟩ none ⟨[]⟩ "alice").2.1 (by simp)

/-- Claim C4: whenever some element of the filter list misses the
`metadata_key` or `values` key, `get_metadata_filter` returns `none`
(the swallowed `KeyError`), raising nothing. -/
theorem C4_malformed_filter_returns_none (filters : List MetadataFilter)
    (f : MetadataFilter) (hmem : f ∈ filters)
    (hbad : f.metadata_key = none ∨ f.values = none) :
    get_metadata_filter filters = none := by
  have hf := mkKeyMatch_none f hbad
  cases filters with
  | nil => cases hmem
  | cons g1 rest =>
    cases rest with
    | nil =>
      have hfg : f = g1 := by simpa using hmem
      subst hfg
      have e1 : get_metadata_filter [f] =
          (match mkKeyMatch f with
            | some km => some (QueryFilter.single km)
            | none => none) := rfl
      rw [e1, hf]
    | cons g2 gs =>
      have hlist := mkKeyMatchList_none_of_mem (g1 :: g2 :: gs) f hmem hf
      have e2 : get_metadata_filter (g1 :: g2 :: gs) =
          (match mkKeyMatchList (g1 :: g2 :: gs) with
            | some kms => some (QueryFilter.should kms)
            | none => none) := rfl
      rw [e2, hlist]

/-- Witness for C4 on a one-element list missing `metadata_key`. -/
theorem C4_witness :
    get_metadata_filter [⟨none, some ["x"]⟩] = none :=
  C4_malformed_filter_returns_none [⟨none, some ["x"]⟩] ⟨none, some ["x"]⟩
    (List.mem_singleton.2 rfl) (Or.inl rfl)

/-- Claim C5: on a well-formed non-empty filter list, a singleton list yields
one exact-match filter, and a list of two or more yields a `should`
disjunction of the per-element exact-match filters, in list order. -/
theorem C5_wellformed_filter_translation :
    (∀ (f : MetadataFilter) (k : String) (vs : List String),
      f.metadata_key = some k → f.values = some vs →
      get_metadata_filter [f] = some (QueryFilter.single ⟨k, vs⟩)) ∧
    (∀ filters : List MetadataFilter, 2 ≤ filters.length →
      (∀ f ∈ filters, f.metadata_key.isSome ∧ f.values.isSome) →
      get_metadata_filter filters = some (QueryFilter.should
        (filters.map (fun f => ⟨f.metadata_key.getD "", f.values.getD []⟩)))) := by
  constructor
  · intro f k vs hk hv
    have e1 : get_metadata_filter [f] =
        (match mkKeyMatch f with
          | some km => some (QueryFilter.single km)
          | none => none) := rfl
    rw [e1, show mkKeyMatch f = some ⟨k, vs⟩ from by unfold mkKeyMatch; rw [hk, hv]]
  · intro filters hlen hwf
    cases filters with
    | nil => simp at hlen
    | cons f1 rest =>
      cases rest with
      | nil => simp at hlen
      | cons f2 fs =>
        have h := mkKeyMatchList_all_some (f1 :: f2 :: fs) hwf
        have e2 : get_metadata_filter (f1 :: f2 :: fs) =
            (match mkKeyMatchList (f1 :: f2 :: fs) with
              | some kms => some (QueryFilter.should kms)
              | none => none) := rfl
        rw [e2, h]

/-- Witness for C5: a singleton and a two-element well-formed list. -/
theorem C5_witness :
    get_metadata_filter [⟨some "a", some ["x"]⟩] =
      some (QueryFilter.single ⟨"a", ["x"]⟩) ∧
    get_metadata_filter [⟨some "a", some ["x"]⟩, ⟨some "b", some ["y"]⟩] =
      some (QueryFilter.should [⟨"a", ["x"]⟩, ⟨"b", ["y"]⟩]) := by
  constructor
  · exact C5_wellformed_filter_translation.1 ⟨some "a", some ["x"]⟩ "a" ["x"] rfl rfl
  · have h := C5_wellformed_filter_translation.2
      [⟨some "a", some ["x"]⟩, ⟨some "b", some ["y"]⟩] (by decide) (by decide)
    simpa using h

/-- Claim C6: collection naming round-trips to user identifiers, and after a
successful `setup_schema user_id` the list returned by `get_users` contains
`user_id` and has exactly one entry per provisioned collection. -/
theorem C6_collection_roundtrip (c : Client) (emb : Option Embeddings)
    (state s1 : DBState) (user_id : String)
    (h : setup_schema ⟨some c, emb⟩ state user_id = .ok s1) :
    get_user_id_from_collection (get_collection_name user_id) = user_id ∧
    ∃ users, get_users ⟨some c, emb⟩ s1 = .ok users ∧ user_id ∈ users ∧
      users.length = s1.collections.length := by
  refine ⟨roundtrip_collection_name user_id, ?_⟩
  rw [setup_schema_some] at h
  injection h with h
  subst h
  refine ⟨(ensureState state user_id).collections.map
    (fun coll : CollectionInfo => get_user_id_from_collection coll.name), rfl, ?_, by simp⟩
  have hmem := mem_ensureState state user_id
  rcases List.mem_map.1 hmem with ⟨coll, hcoll, hname⟩
  refine List.mem_map.2 ⟨coll, hcoll, ?_⟩
  rw [hname]
  exact roundtrip_collection_name user_id

/-- Witness for C6 after provisioning `"alice"` on an empty server. -/
theorem C6_witness :
    get_user_id_from_collection (get_collection_name "alice") = "alice" ∧
    ∃ users, get_users ⟨some ⟨0⟩, none⟩
        ⟨[⟨get_collection_name "alice", 768, Distance.Cosine, class_schema.properties⟩]⟩ =
      .ok users ∧ "alice" ∈ users ∧
      users.length = (DBState.mk [⟨get_collection_name "alice", 768, Distance.Cosine,
        class_schema.properties⟩]).collections.length :=
  C6_collection_roundtrip ⟨0⟩ none ⟨[]⟩ _ "alice"
    (by rw [setup_schema_some]; rfl)

/-- Claim C7: construction fails with the connection-error exception exactly
when creating the underlying client fails; on success the adapter's fields
hold the created client and the given embedding. -/
theorem C7_init_behaviour (r : Except Unit Client) (emb : Option Embeddings) :
    ((∃ e, init r emb = .error e) ↔ (∃ u, r = .error u)) ∧
    (∀ e, init r emb = .error e → e = DbException.connectionError) ∧
    (∀ c, r = .ok c → init r emb = .ok ⟨some c, emb⟩) := by
  cases r with
  | error u =>
    refine ⟨⟨fun _ => ⟨u, rfl⟩, fun _ => ⟨DbException.connectionError, rfl⟩⟩, ?_, ?_⟩
    · intro e he
      have h : DbException.connectionError = e := by injection he
      exact h.symm
    · intro c hc
      exact absurd hc (by simp)
  | ok c0 =>
    refine ⟨⟨?_, ?_⟩, ?_, ?_⟩
    · rintro ⟨e, he⟩
      simp [init] at he
    · rintro ⟨u, hu⟩
      simp at hu
    · intro e he
      simp [init] at he
    · intro c hc
      simp at hc
      subst hc
      rfl

/-- Witness for C7 on a successfully created client. -/
theorem C7_witness :
    init (Except.ok ⟨5⟩) (some ⟨7⟩) = .ok ⟨some ⟨5⟩, some ⟨7⟩⟩ :=
  (C7_init_behaviour (Except.ok ⟨5⟩) (some ⟨7⟩)).2.2 ⟨5⟩ rfl

/-- Claim C8: every `DbException` the adapter raises is either the
connection error at construction (and only when client creation failed) or
the client-not-initialised guard (and only when the client is `None`); no
other code path of the operations produces the exception. -/
theorem C8_db_exception_sources :
    (∀ (r : Except Unit Client) (emb : Option Embeddings) (e : DbException),
      init r emb = .error e → e = DbException.connectionError ∧ ∃ u, r = .error u) ∧
    (∀ (db : VectorDB) (state : DBState) (e : DbException),
      get_users db state = .error e →
        e = DbException.clientNotInitialised ∧ db.client = none) ∧
    (∀ (db : VectorDB) (state : DBState) (user_id : String) (e : DbException),
      setup_schema db state user_id = .error e →
        e = DbException.clientNotInitialised ∧ db.client = none) ∧
    (∀ (db : VectorDB) (state : DBState) (searchFn : SearchQuery → List Hit)
      (user_id metadata_key : String) (values : List String) (e : DbException),
      get_objects_from_metadata db state searchFn user_id metadata_key values = .error e →
        e = DbException.clientNotInitialised ∧ db.client = none) ∧
    (∀ (db : VectorDB) (state : DBState) (user_id : String) (emb : Option Embeddings)
      (e : DbException),
      get_user_client db state user_id emb = .error e →
        e = DbException.clientNotInitialised ∧ db.client = none) := by
  refine ⟨?_, ?_, ?_, ?_, ?_⟩
  · intro r emb e he
    cases r with
    | error u =>
      have h : DbException.connectionError = e := by injection he
      exact ⟨h.symm, u, rfl⟩
    | ok c => simp [init] at he
  · intro db state e he
    obtain ⟨cl, emb⟩ := db
    cases cl with
    | none =>
      have h : DbException.clientNotInitialised = e := by injection he
      exact ⟨h.symm, rfl⟩
    | some c0 => simp [get_users] at he
  · intro db state user_id e he
    obtain ⟨cl, emb⟩ := db
    cases cl with
    | none =>
      have h : DbException.clientNotInitialised = e := by injection he
      exact ⟨h.symm, rfl⟩
    | some c0 =>
      rw [setup_schema_some] at he
      simp at he
  · intro db state searchFn user_id metadata_key values e he
    obtain ⟨cl, emb⟩ := db
    cases cl with
    | none =>
      have h : DbException.clientNotInitialised = e := by injection he
      exact ⟨h.symm, rfl⟩
    | some c0 =>
      rw [get_objects_some_client] at he
      simp at he
  · intro db state user_id emb2 e he
    obtain ⟨cl, emb⟩ := db
    cases cl with
    | none =>
      have h : DbException.clientNotInitialised = e := by injection he
      exact ⟨h.symm, rfl⟩
    | some c0 =>
      unfold get_user_client at he
      rw [setup_schema_some] at he
      simp at he

/-- Witness for C8: the guard in `get_users` on an uninitialised client. -/
theorem C8_witness :
    DbException.clientNotInitialised = DbException.clientNotInitialised ∧
    (VectorDB.mk none none).client = none :=
  C8_db_exception_sources.2.1 ⟨none, none⟩ ⟨[]⟩ DbException.clientNotInitialised rfl

/-- Claim C9: the internally built singleton filter list always has both
keys, so `get_metadata_filter` returns a value and the metadata-filter-error
guard of `get_objects_from_metadata` never fires: with an initialised client
the call returns `ok`, and with an uninitialised client it raises the
client-not-initialised error before reaching the guard. -/
theorem C9_metadata_filter_guard_unreachable :
    (∀ (metadata_key : String) (values : List String),
      (get_metadata_filter [⟨some metadata_key, some values⟩]).isSome = true) ∧
    (∀ (c : Client) (emb : Option Embeddings) (state : DBState)
      (searchFn : SearchQuery → List Hit) (user_id metadata_key : String)
      (values : List String),
      ∃ res, get_objects_from_metadata ⟨some c, emb⟩ state searchFn
        user_id metadata_key values = Except.ok res) ∧
    (∀ (emb : Option Embeddings) (state : DBState) (searchFn : SearchQuery → List Hit)
      (user_id metadata_key : String) (values : List String),
      get_objects_from_metadata ⟨none, emb⟩ state searchFn user_id metadata_key values =
        Except.error DbException.clientNotInitialised) := by
  refine ⟨fun _ _ => rfl, ?_, fun _ _ _ _ _ _ => rfl⟩
  intro c emb state searchFn user_id metadata_key values
  exact ⟨_, get_objects_some_client c emb state searchFn user_id metadata_key values⟩

/-- Claim C10: the empty filter list yields `none`, the same sentinel value
`get_metadata_filter` yields for malformed input, so the two are
indistinguishable by the return value. -/
theorem C10_empty_equals_malformed_sentinel :
    get_metadata_filter [] = none ∧
    get_metadata_filter [⟨none, none⟩] = none ∧
    get_metadata_filter [] = get_metadata_filter [⟨none, none⟩] :=
  ⟨rfl, rfl, rfl⟩

end Qdrant
